import Mathlib

/-!
Verification development for the PraisonAI Bench TypeScript evaluation and
plugin-dispatch subsystem.

The definitions below are a shallow embedding of the repository's code:

* `compareOutput`, `calculateSimilarity`, `lcsLen` — `src/evaluator.ts`
  (`TypeScriptEvaluator.compareOutput` / `calculateSimilarity` /
  `longestCommonSubsequence`).  JavaScript numbers are modelled as exact
  rationals (`ℚ`), `Math.floor` as `Int.floor`, `Math.round` as `round`
  (both round half-up on the non-negative values that occur here, exactly
  like `Math.round`).
* `validateSyntax`, `tsEvaluate`, `extractCode` — `TypeScriptEvaluator`.
  The effectful stages (TypeScript compiler diagnostics, subprocess
  execution) are summarized by explicit inputs (`Diagnostic` lists,
  `ExecutionResult`); the pure control flow, scoring and feedback
  construction are translated statement by statement.  `tsEvaluate`
  additionally returns the list of pipeline stages that actually ran, so
  that short-circuiting is observable.
* `validateStructure`, `htmlEvaluate`, `extractHTML` —
  `src/evaluators/html-evaluator.ts`.  The Playwright browser session is
  summarized by an `Except String BrowserResult` input (`.error` models the
  thrown exception caught at the `catch` fallback).
* `detectLanguage`, `findFenceTag` — `Bench.detectLanguage` in
  `src/bench.ts`.
* `PluginManager.*` — `src/plugin-manager.ts`.  The JavaScript `Map` is
  modelled as a function `String → Option BaseEvaluator` (the claims under
  study do not involve iteration order); evaluator instances are modelled
  by an identity tag plus their self-reported language.  Only successful
  external plugin loads are modelled, since failed loads leave the manager
  unchanged.
* `discoverPlugins`, `scanPackages`, `discoverPluginFromPackage` —
  `src/plugin-discovery.ts`, parameterized by an abstract `FileSystem`
  (`none` results model thrown `fs` errors, which the source catches).
  The candidate `node_modules` path list (`getNodeModulesPaths`, which
  reads `process.cwd()` and `NODE_PATH`) is passed as an input.

JavaScript string semantics (`trim`, `toLowerCase`, `includes`, regexp
scanning used by `extractCode` / `extractHTML` / `detectLanguage`) are
embedded over `List Char`; ASCII case mapping and the ASCII whitespace
class are modelled (the code paths under study only distinguish ASCII).
-/

/-- Whitespace test used for the JavaScript regexp class `\s` and `trim`. -/
def isJsWs (c : Char) : Bool :=
  c == ' ' || c == '\t' || c == '\n' || c == '\r' || c == '\x0b' || c == '\x0c'

/-- ASCII lower-casing of one character, as in JavaScript `toLowerCase`. -/
def charToLower (c : Char) : Char :=
  if 65 ≤ c.toNat ∧ c.toNat ≤ 90 then Char.ofNat (c.toNat + 32) else c

/-- ASCII upper-casing of one character, as in JavaScript `toUpperCase`. -/
def charToUpper (c : Char) : Char :=
  if 97 ≤ c.toNat ∧ c.toNat ≤ 122 then Char.ofNat (c.toNat - 32) else c

/-- Lower-case a character list. -/
def jsToLowerChars (l : List Char) : List Char := l.map charToLower

/-- JavaScript `String.prototype.toLowerCase` (ASCII fragment). -/
def jsToLower (s : String) : String := String.mk (jsToLowerChars s.data)

/-- JavaScript `String.prototype.toUpperCase` (ASCII fragment). -/
def jsToUpper (s : String) : String := String.mk (s.data.map charToUpper)

/-- Strip leading and trailing whitespace from a character list. -/
def jsTrimChars (l : List Char) : List Char :=
  ((l.dropWhile isJsWs).reverse.dropWhile isJsWs).reverse

/-- JavaScript `String.prototype.trim`. -/
def jsTrim (s : String) : String := String.mk (jsTrimChars s.data)

/-- Does the second list start with the first one? -/
def listStartsWith : List Char → List Char → Bool
  | [], _ => true
  | _ :: _, [] => false
  | p :: ps, c :: cs => p == c && listStartsWith ps cs

/-- Case-insensitive version of `listStartsWith`. -/
def listStartsWithCI (pat l : List Char) : Bool :=
  listStartsWith (jsToLowerChars pat) (jsToLowerChars l)

/-- Index of the first occurrence of `pat` inside the second list. -/
def indexOfSub (pat : List Char) : List Char → Option Nat
  | [] => if listStartsWith pat [] then some 0 else none
  | l@(_ :: rest) =>
    if listStartsWith pat l then some 0
    else (indexOfSub pat rest).map (· + 1)

/-- JavaScript `String.prototype.includes`. -/
def jsIncludes (s sub : String) : Bool := (indexOfSub sub.data s.data).isSome

/-- One row update of the longest-common-subsequence dynamic-programming
table from `TypeScriptEvaluator.longestCommonSubsequence`: given the
previous row (starting at column `j - 1`) and the value to the left of the
cell being filled, produce the remaining cells of the current row. -/
def lcsRowAux (c : Char) : List Char → List Nat → Nat → List Nat
  | [], _, _ => []
  | bj :: brest, prev, left =>
    let diag := prev.headD 0
    let up := prev.tail.headD 0
    let cur := if c == bj then diag + 1 else max up left
    cur :: lcsRowAux c brest prev.tail cur

/-- Length of the longest common subsequence, computed row by row exactly
like the `dp` table of `TypeScriptEvaluator.longestCommonSubsequence`
(`dp[i][j]` with `dp[0][j] = dp[i][0] = 0`); the result is `dp[m][n]`. -/
def lcsLen (a b : List Char) : Nat :=
  (a.foldl (fun prev c => 0 :: lcsRowAux c b prev 0)
    (List.replicate (b.length + 1) 0)).getLastD 0

/-- `TypeScriptEvaluator.calculateSimilarity`: similarity ratio
`2 * LCS(a, b) / (a.length + b.length)` with the two guard clauses. -/
def calculateSimilarity (a b : List Char) : ℚ :=
  if a = b then 1
  else if a.length = 0 ∨ b.length = 0 then 0
  else 2 * (lcsLen a b : ℚ) / ((a.length : ℚ) + (b.length : ℚ))

/-- The similarity-to-points mapping from the tail of
`TypeScriptEvaluator.compareOutput` (the three-bracket `Math.floor`
conversion to 0–30 points). -/
def similarityToScore (adjustedSimilarity : ℚ) : ℤ :=
  if adjustedSimilarity ≥ 0.8 then ⌊25 + (adjustedSimilarity - 0.8) * 25⌋
  else if adjustedSimilarity ≥ 0.5 then ⌊15 + (adjustedSimilarity - 0.5) * 33.33⌋
  else ⌊adjustedSimilarity * 30⌋

/-- `TypeScriptEvaluator.compareOutput`: returns the pair
(comparison score, similarity ratio). -/
def compareOutput (actual expected : String) : ℤ × ℚ :=
  let actualTrimmed := jsTrim actual
  let expectedTrimmed := jsTrim expected
  if actualTrimmed = expectedTrimmed then (30, 1)
  else
    let actualNormalized := jsToLower actualTrimmed
    let expectedNormalized := jsToLower expectedTrimmed
    if actualNormalized = expectedNormalized then (30, 1)
    else
      let similarity :=
        calculateSimilarity actualNormalized.data expectedNormalized.data
      let adjustedSimilarity :=
        if jsIncludes actualNormalized expectedNormalized then
          max similarity 0.85
        else similarity
      (min (similarityToScore adjustedSimilarity) 30, adjustedSimilarity)

/-- Feedback severity levels (`FeedbackItem.level`). -/
inductive FeedbackLevel
  | success
  | warning
  | error
  | info
deriving DecidableEq

/-- A feedback entry (`FeedbackItem` of `base-evaluator.ts`; the optional
`details` field is used by the HTML evaluator). -/
structure FeedbackItem where
  level : FeedbackLevel
  message : String
  details : Option String := none
deriving DecidableEq

/-- Per-stage score contributions (`ScoreBreakdown`); the `syntax` field of
the source is called `syntaxScore` here because `syntax` is reserved in
Lean. -/
structure ScoreBreakdown where
  syntaxScore : ℤ
  execution : ℤ
  output_match : ℤ
deriving DecidableEq

/-- Diagnostic data of the TypeScript evaluation (`EvaluationDetails`).
Fields that the source leaves `undefined` are `none`; `error` is doubly
optional because the source stores `string | null` in an optional field. -/
structure EvaluationDetails where
  extracted_code : String := ""
  executed : Option Bool := none
  output : Option String := none
  error : Option (Option String) := none
  syntax_error : Option String := none
  similarity : Option ℚ := none
  expected : Option String := none
  score_breakdown : Option ScoreBreakdown := none
deriving DecidableEq

/-- Result record returned by `TypeScriptEvaluator.evaluate`. -/
structure EvaluationResult where
  score : ℤ
  passed : Bool
  feedback : List FeedbackItem
  details : EvaluationDetails
deriving DecidableEq

/-- One syntactic diagnostic produced by the TypeScript compiler front end:
its flattened message and its zero-based line number (the source computes
the line with `ts.getLineAndCharacterOfPosition`, which is zero-based, and
adds 1 when formatting). -/
structure Diagnostic where
  message : String
  line : Nat
deriving DecidableEq

/-- Result of `TypeScriptEvaluator.validateSyntax`. -/
structure SyntaxValidationResult where
  isValid : Bool
  error : Option String
  imports : List String
deriving DecidableEq

/-- `TypeScriptEvaluator.validateSyntax`, as a function of the syntactic
diagnostics reported by the compiler for the source file and of the import
specifiers collected from the AST.  With at least one diagnostic the result
is invalid and carries `message (line N)` with the 1-based line `N`; the
list of imports is only populated on the valid path (the source collects
them after the diagnostics check). -/
def validateSyntax (diags : List Diagnostic) (imports : List String) :
    SyntaxValidationResult :=
  match diags with
  | [] => { isValid := true, error := none, imports := imports }
  | firstError :: _ =>
    { isValid := false
      error := some (firstError.message ++ " (line " ++
        toString (firstError.line + 1) ++ ")")
      imports := [] }

/-- Result of `TypeScriptEvaluator.executeCode` (subprocess outcome). -/
structure ExecutionResult where
  success : Bool
  output : Option String
  error : Option String
deriving DecidableEq

/-- JavaScript template-literal rendering of a possibly-null string. -/
def jsInterpOpt : Option String → String
  | some s => s
  | none => "null"

/-- JavaScript `x || undefined` on an optional string. -/
def jsOrUndefined : Option String → Option String
  | some s => if s = "" then none else some s
  | none => none

/-- The three backticks opening and closing a fenced code block. -/
def tripleTick : List Char := ['`', '`', '`']

/-- JavaScript regexp word character `\w`. -/
def isWordChar (c : Char) : Bool := c.isAlphanum || c == '_'

/-- Attempt to close a fence of the pattern `` ```tag\s*\n([\s\S]*?)\n``` ``
when the `\n` consumed after `\s*` sits at index `i` of `after` (the text
following the opening tag): requires a later `` \n``` `` and captures the
text in between. -/
def matchFenceCloseAt (after : List Char) (i : Nat) : Option (List Char) :=
  if after[i]? = some '\n' then
    match indexOfSub ('\n' :: tripleTick) (after.drop (i + 1)) with
    | some j => some ((after.drop (i + 1)).take j)
    | none => none
  else none

/-- Backtracking over the greedy `\s*`: try the newline position from the
end of the whitespace run downwards, as the JavaScript regexp engine does. -/
def fenceTry (after : List Char) : Nat → Option (List Char)
  | 0 => matchFenceCloseAt after 0
  | i + 1 =>
    match matchFenceCloseAt after (i + 1) with
    | some cap => some cap
    | none => fenceTry after i

/-- Match `` \s*\n([\s\S]*?)\n``` `` against the text following an opening
`` ```tag ``. -/
def matchFenceTail (after : List Char) : Option (List Char) :=
  match (after.takeWhile isJsWs).length with
  | 0 => none
  | k + 1 => fenceTry after k

/-- Scan for the first match of `` ```tag\s*\n([\s\S]*?)\n``` ``, advancing
one character at a time like the regexp engine. -/
def scanFence (tag : List Char) : List Char → Option (List Char)
  | [] => none
  | l@(_ :: rest) =>
    if listStartsWith (tripleTick ++ tag) l then
      match matchFenceTail (l.drop (3 + tag.length)) with
      | some cap => some cap
      | none => scanFence tag rest
    else scanFence tag rest

/-- `TypeScriptEvaluator.extractCode`: try the `typescript`, `ts` and
untagged fence patterns in order, trimming the capture; fall back to the
trimmed response. -/
def extractCode (response : String) : String :=
  match scanFence "typescript".data response.data with
  | some cap => jsTrim (String.mk cap)
  | none =>
    match scanFence "ts".data response.data with
    | some cap => jsTrim (String.mk cap)
    | none =>
      match scanFence [] response.data with
      | some cap => jsTrim (String.mk cap)
      | none => jsTrim response

/-- Pipeline stages of `TypeScriptEvaluator.evaluate`, recorded by the
embedding so that short-circuiting is observable. -/
inductive Stage
  | syntaxCheck
  | execution
  | outputComparison
deriving DecidableEq

/-- External-stage outcomes consumed by one `TypeScriptEvaluator.evaluate`
call: the compiler diagnostics and AST imports of the extracted code, and
the subprocess result that execution would produce. -/
structure TsStageInputs where
  diagnostics : List Diagnostic
  imports : List String
  execResult : ExecutionResult
deriving DecidableEq

/-- `TypeScriptEvaluator.evaluate`, translated statement by statement; the
second component lists the stages that ran.  Scoring: syntax 30, execution
40, output comparison up to 30 (only attempted when an expected value is
truthy and execution succeeded), final score clamped with
`Math.min(score, 100)` and `passed = score >= 70`. -/
def tsEvaluate (code _testName _prompt : String) (expected : Option String)
    (ext : TsStageInputs) : EvaluationResult × List Stage :=
  let extractedCode := extractCode code
  let syntaxResult := validateSyntax ext.diagnostics ext.imports
  if syntaxResult.isValid then
    let feedback1 : List FeedbackItem :=
      [{ level := .success, message := "✅ Valid TypeScript syntax" }] ++
      (if syntaxResult.imports.length > 0 then
        [{ level := .info
           message := "📦 Imports: " ++
             String.intercalate ", " syntaxResult.imports }]
      else [])
    let executionResult := ext.execResult
    let outputStr := executionResult.output.getD ""
    let feedback2 : List FeedbackItem :=
      if executionResult.success then
        [{ level := .success, message := "✅ Code executed successfully" }] ++
        (if outputStr ≠ "" then
          [{ level := .info
             message := "📤 Output: " ++
               (if outputStr.data.length > 100 then
                 String.mk (outputStr.data.take 100) ++ "..."
               else outputStr) }]
        else [])
      else
        [{ level := .error
           message := "❌ Runtime error: " ++ jsInterpOpt executionResult.error }]
    let expectedStr := expected.getD ""
    let cmpRan := expectedStr ≠ "" ∧ executionResult.success = true
    let cmpResult := compareOutput outputStr expectedStr
    let matchScore : ℤ := if cmpRan then cmpResult.1 else 0
    let similarity := cmpResult.2
    let feedback3 : List FeedbackItem :=
      if cmpRan then
        (if matchScore ≥ 25 then
          [{ level := .success
             message := "✅ Output matches expected (" ++
               toString (round (similarity * 100)) ++ "% similarity)" }]
        else if matchScore ≥ 15 then
          [{ level := .warning
             message := "⚠️  Output partially matches expected (" ++
               toString (round (similarity * 100)) ++ "% similarity)" }]
        else
          [{ level := .warning
             message := "⚠️  Output differs from expected (" ++
               toString (round (similarity * 100)) ++ "% similarity)" },
           { level := .info
             message := "Expected: " ++
               (if expectedStr.data.length > 50 then
                 String.mk (expectedStr.data.take 50) ++ "..."
               else expectedStr) }])
      else if expectedStr ≠ "" ∧ executionResult.success = false then
        [{ level := .error
           message := "❌ Cannot compare output - code did not execute" }]
      else []
    let score : ℤ := 30 + (if executionResult.success then 40 else 0) + matchScore
    let passed := decide (score ≥ 70)
    let breakdown : ScoreBreakdown :=
      { syntaxScore := if syntaxResult.isValid then 30 else 0
        execution := if executionResult.success then 40 else 0
        output_match := if cmpRan then matchScore else 0 }
    ({ score := min score 100
       passed := passed
       feedback := feedback1 ++ feedback2 ++ feedback3
       details :=
         { extracted_code := extractedCode
           executed := some executionResult.success
           output := some outputStr
           error := some executionResult.error
           similarity := if cmpRan then some similarity else none
           expected := if cmpRan then some expectedStr else none
           score_breakdown := some breakdown } },
     [Stage.syntaxCheck, Stage.execution] ++
       (if cmpRan then [Stage.outputComparison] else []))
  else
    ({ score := 0
       passed := false
       feedback :=
         [{ level := .error
            message := "❌ Syntax error: " ++ jsInterpOpt syntaxResult.error }]
       details :=
         { extracted_code := extractedCode
           syntax_error := jsOrUndefined syntaxResult.error } },
     [Stage.syntaxCheck])

/-- Result of `HTMLEvaluator.validateStructure`. -/
structure StructureResult where
  score : ℤ
  has_doctype : Bool
  has_required_tags : Bool
  issues : List String
deriving DecidableEq

/-- Existence of a match of the regexp `/<[a-z][^>]*>/gi`: a `<` followed
by an ASCII letter with a later `>`.  The source only compares the match
count with 0, so the embedding records existence. -/
def hasHtmlTag : List Char → Bool
  | '<' :: c :: cs => (c.isAlpha && cs.contains '>') || hasHtmlTag (c :: cs)
  | _ :: rest => hasHtmlTag rest
  | [] => false

/-- `HTMLEvaluator.validateStructure`: DOCTYPE check (25 points), required
tags `<html`, `<head`, `<body` (25 points, pro-rated by thirds — the
source's loop over the three tags is unrolled here), any-tag check
(50 points), with `Math.round` at the end. -/
def validateStructure (html : String) : StructureResult :=
  let hasDoctype := jsIncludes (jsToUpper html) "<!DOCTYPE"
  let s1 : ℚ := if hasDoctype then 25 else 0
  let issues1 : List String :=
    if hasDoctype then [] else ["Missing DOCTYPE declaration"]
  let htmlLower := jsToLower html
  let f1 := jsIncludes htmlLower "<html"
  let f2 := jsIncludes htmlLower "<head"
  let f3 := jsIncludes htmlLower "<body"
  let foundTags : Nat := (cond f1 1 0) + (cond f2 1 0) + (cond f3 1 0)
  let issues2 : List String :=
    (if f1 then [] else ["Missing required tag: <html>"]) ++
    (if f2 then [] else ["Missing required tag: <head>"]) ++
    (if f3 then [] else ["Missing required tag: <body>"])
  let s2 : ℚ := s1 + ((foundTags : ℚ) / 3) * 25
  let openTagsPositive := hasHtmlTag html.data
  let s3 : ℚ := s2 + (if openTagsPositive then 50 else 0)
  let issues3 : List String :=
    issues1 ++ issues2 ++ (if openTagsPositive then [] else ["No HTML tags found"])
  { score := round s3
    has_doctype := hasDoctype
    has_required_tags := foundTags = 3
    issues := issues3 }

/-- Outcome returned by `HTMLEvaluator.evaluateInBrowser`. -/
structure BrowserResult where
  renders : Bool
  errors : List String
  warnings : List String
  screenshot : Option String
  render_time_ms : Nat
deriving DecidableEq

/-- `details` of an HTML evaluation result. -/
structure HtmlDetails where
  renders : Bool := false
  errors : List String := []
  warnings : List String := []
  screenshot : Option String := none
  render_time_ms : Nat := 0
  has_doctype : Bool
  has_required_tags : Bool
  structure_issues : List String
deriving DecidableEq

/-- `HTMLEvaluationResult` of the HTML evaluator. -/
structure HtmlEvaluationResult where
  score : ℤ
  passed : Bool
  feedback : List FeedbackItem
  details : HtmlDetails
  overall_score : Option ℤ := none
deriving DecidableEq

/-- Match `` \s*([\s\S]*?)``` `` against the text following an opening
fence: skip the greedy whitespace run, then capture lazily up to the first
closing `` ``` `` (no closing fence means no match; backticks are not
whitespace, so backtracking into the whitespace run cannot help). -/
def matchSimpleFenceTail (after : List Char) : Option (List Char) :=
  let rest := after.dropWhile isJsWs
  match indexOfSub tripleTick rest with
  | some j => some (rest.take j)
  | none => none

/-- Scan for the first match of the case-insensitive pattern
`` /```html\s*([\s\S]*?)```/i ``. -/
def scanFenceHtml : List Char → Option (List Char)
  | [] => none
  | l@(_ :: rest) =>
    if listStartsWithCI "```html".data l then
      match matchSimpleFenceTail (l.drop 7) with
      | some cap => some cap
      | none => scanFenceHtml rest
    else scanFenceHtml rest

/-- Scan for the first match of the generic pattern
`` /```\s*([\s\S]*?)```/ ``. -/
def scanFenceAny : List Char → Option (List Char)
  | [] => none
  | l@(_ :: rest) =>
    if listStartsWith tripleTick l then
      match matchSimpleFenceTail (l.drop 3) with
      | some cap => some cap
      | none => scanFenceAny rest
    else scanFenceAny rest

/-- `HTMLEvaluator.extractHTML`. -/
def extractHTML (response : String) : String :=
  match scanFenceHtml response.data with
  | some cap => jsTrim (String.mk cap)
  | none =>
    match scanFenceAny response.data with
    | some cap => jsTrim (String.mk cap)
    | none => jsTrim response

/-- `HTMLEvaluator.evaluate`.  `playwrightAvailable` reflects whether the
optional Playwright dependency loaded; `browserOutcome` summarizes the
`evaluateInBrowser` call (`Except.error msg` is the thrown error caught by
the fallback branch).  Browser path: renders 50, console errors 30/15/0,
render time 20/10/0.  Fallback paths score the static structure at half
weight. -/
def htmlEvaluate (code _testName _prompt : String) (_expected : Option String)
    (playwrightAvailable : Bool) (browserOutcome : Except String BrowserResult) :
    HtmlEvaluationResult :=
  let html := extractHTML code
  let structureResult := validateStructure html
  let baseDetails : HtmlDetails :=
    { has_doctype := structureResult.has_doctype
      has_required_tags := structureResult.has_required_tags
      structure_issues := structureResult.issues }
  let structFeedback : List FeedbackItem :=
    (if structureResult.has_doctype then
      [{ level := .success, message := "✅ DOCTYPE declaration present" }]
    else
      [{ level := .warning, message := "⚠️  Missing DOCTYPE declaration" }]) ++
    (if structureResult.has_required_tags then
      [{ level := .success
         message := "✅ Required HTML tags present (html, head, body)" }]
    else
      [{ level := .warning, message := "⚠️  Missing some required HTML tags" }])
  if playwrightAvailable then
    match browserOutcome with
    | .ok browserResult =>
      let details : HtmlDetails :=
        { baseDetails with
          renders := browserResult.renders
          errors := browserResult.errors
          warnings := browserResult.warnings
          screenshot := browserResult.screenshot
          render_time_ms := browserResult.render_time_ms }
      let s1 : ℤ := if browserResult.renders then 50 else 0
      let fb1 : List FeedbackItem :=
        if browserResult.renders then
          [{ level := .success, message := "✅ HTML renders successfully in browser" }]
        else
          [{ level := .error, message := "❌ HTML failed to render in browser" }]
      let s2 : ℤ :=
        if browserResult.errors.length = 0 then 30
        else if browserResult.errors.length ≤ 2 then 15
        else 0
      let fb2 : List FeedbackItem :=
        if browserResult.errors.length = 0 then
          [{ level := .success, message := "✅ No console errors" }]
        else if browserResult.errors.length ≤ 2 then
          [{ level := .warning
             message := "⚠️  " ++ toString browserResult.errors.length ++
               " console error(s)"
             details := some (String.intercalate "; " browserResult.errors) }]
        else
          [{ level := .error
             message := "❌ " ++ toString browserResult.errors.length ++
               " console errors"
             details := some (String.intercalate "; " (browserResult.errors.take 3)) }]
      let s3 : ℤ :=
        if 0 < browserResult.render_time_ms ∧ browserResult.render_time_ms < 1000
        then 20
        else if browserResult.render_time_ms < 3000 then 10
        else 0
      let fb3 : List FeedbackItem :=
        if 0 < browserResult.render_time_ms ∧ browserResult.render_time_ms < 1000
        then
          [{ level := .success
             message := "✅ Fast render time: " ++
               toString browserResult.render_time_ms ++ "ms" }]
        else if browserResult.render_time_ms < 3000 then
          [{ level := .info
             message := "📊 Render time: " ++
               toString browserResult.render_time_ms ++ "ms" }]
        else []
      let fb4 : List FeedbackItem :=
        if browserResult.screenshot.getD "" ≠ "" then
          [{ level := .info
             message := "📸 Screenshot saved: " ++ browserResult.screenshot.getD "" }]
        else []
      let browserScore := s1 + s2 + s3
      { score := browserScore
        passed := decide (browserScore ≥ 70)
        feedback := structFeedback ++ fb1 ++ fb2 ++ fb3 ++ fb4
        details := details
        overall_score := some browserScore }
    | .error msg =>
      let fallbackScore := round ((structureResult.score : ℚ) * 0.5)
      { score := fallbackScore
        passed := decide (fallbackScore ≥ 70)
        feedback := structFeedback ++
          [{ level := .warning
             message := "⚠️  Browser evaluation failed: " ++ msg }]
        details := baseDetails
        overall_score := some fallbackScore }
  else
    let fallbackScore := round ((structureResult.score : ℚ) * 0.5)
    { score := fallbackScore
      passed := decide (fallbackScore ≥ 70)
      feedback := structFeedback ++
        [{ level := .info
           message := "📊 Using static HTML validation (Playwright not available)" }]
      details := baseDetails
      overall_score := some fallbackScore }

/-- Test configuration record (`TestConfig` of `bench.ts`). -/
structure TestConfig where
  name : Option String := none
  prompt : String := ""
  model : Option String := none
  language : Option String := none
  expected : Option String := none
deriving DecidableEq

/-- First match of the regexp `` /```(\w+)/ ``: scan for three backticks
immediately followed by at least one word character, advancing one
character at a time; the tag is the maximal word-character run. -/
def findFenceTag : List Char → Option (List Char)
  | [] => none
  | l@(_ :: rest) =>
    match l with
    | '`' :: '`' :: '`' :: after =>
      let tag := after.takeWhile isWordChar
      if tag.isEmpty then findFenceTag rest else some tag
    | _ => findFenceTag rest

/-- `Bench.detectLanguage`: explicit (truthy) configuration language wins,
else a fenced-block tag other than the generic `code`, else `html` when the
response contains a doctype or `<html` tag, else the default `typescript`. -/
def detectLanguage (response : String) (testConfig : Option TestConfig) : String :=
  let cfgLang := (testConfig.bind TestConfig.language).getD ""
  if cfgLang ≠ "" then jsToLower cfgLang
  else
    let sniffed : String :=
      if jsIncludes (jsToLower response) "<!doctype" ||
         jsIncludes (jsToLower response) "<html" then "html"
      else "typescript"
    match findFenceTag response.data with
    | some tag =>
      let lang := String.mk (jsToLowerChars tag)
      if lang ≠ "code" then lang else sniffed
    | none => sniffed

/-- An evaluator instance held by the registry: its self-reported language
(`getLanguage()`) plus an identity tag distinguishing instances, so that
"same instance" claims are expressible. -/
structure BaseEvaluator where
  getLanguage : String
  instId : Nat
deriving DecidableEq

/-- The built-in `TypeScriptEvaluator` instance constructed by
`loadBuiltinEvaluators` (its `getLanguage()` returns `typescript`). -/
def tsEvaluatorInstance : BaseEvaluator := ⟨"typescript", 0⟩

/-- The built-in `HTMLEvaluator` instance constructed by
`loadBuiltinEvaluators` (its `getLanguage()` returns `html`). -/
def htmlEvaluatorInstance : BaseEvaluator := ⟨"html", 1⟩

/-- Ledger entry for a successfully loaded external plugin
(`LoadedPlugin`). -/
structure LoadedPlugin where
  language : String
  packageName : String
  evaluator : BaseEvaluator
deriving DecidableEq

/-- State of `PluginManager`: the `Map` from lower-cased language keys to
evaluator instances (modelled as a function, see the header comment) and
the loaded-plugin ledger. -/
structure PluginManager where
  evaluators : String → Option BaseEvaluator
  loadedPlugins : List LoadedPlugin

/-- `PluginManager.register`: `this.evaluators.set(language.toLowerCase(), evaluator)`. -/
def PluginManager.register (m : PluginManager) (language : String)
    (evaluator : BaseEvaluator) : PluginManager :=
  { m with
    evaluators := fun k =>
      if k = jsToLower language then some evaluator else m.evaluators k }

/-- `PluginManager.getEvaluator`: `this.evaluators.get(language.toLowerCase())`. -/
def PluginManager.getEvaluator (m : PluginManager) (language : String) :
    Option BaseEvaluator :=
  m.evaluators (jsToLower language)

/-- `PluginManager.hasEvaluator`: `this.evaluators.has(language.toLowerCase())`. -/
def PluginManager.hasEvaluator (m : PluginManager) (language : String) : Bool :=
  (m.evaluators (jsToLower language)).isSome

/-- `PluginManager.unregister`: `this.evaluators.delete(language.toLowerCase())`
(the Boolean is the `Map.delete` return value). -/
def PluginManager.unregister (m : PluginManager) (language : String) :
    PluginManager × Bool :=
  ({ m with
     evaluators := fun k =>
       if k = jsToLower language then none else m.evaluators k },
   (m.evaluators (jsToLower language)).isSome)

/-- The state before the constructor body runs. -/
def PluginManager.empty : PluginManager := ⟨fun _ => none, []⟩

/-- `PluginManager.loadBuiltinEvaluators`: registers the TypeScript
evaluator under `typescript` and `ts` and the HTML evaluator under `html`
(the version of the manager with plugin discovery registers exactly these
three aliases). -/
def PluginManager.loadBuiltinEvaluators (m : PluginManager) : PluginManager :=
  ((m.register "typescript" tsEvaluatorInstance).register "ts"
    tsEvaluatorInstance).register "html" htmlEvaluatorInstance

/-- `PluginManager.loadPlugin` for a plugin whose evaluator class loaded
and validated: register under the evaluator's self-reported lower-cased
language and append to the ledger.  (A failed load returns without
mutating the manager and is therefore not represented.) -/
def PluginManager.loadPlugin (m : PluginManager) (packageName : String)
    (evaluator : BaseEvaluator) : PluginManager :=
  let language := jsToLower evaluator.getLanguage
  let m1 := m.register language evaluator
  { m1 with
    loadedPlugins := m1.loadedPlugins ++ [⟨language, packageName, evaluator⟩] }

/-- `PluginManager.discoverPlugins`: load each discovered plugin in order.
The discovery result (package name and instantiated evaluator of each
successfully loading plugin) is passed as an input. -/
def PluginManager.discoverAndLoad (m : PluginManager)
    (found : List (String × BaseEvaluator)) : PluginManager :=
  found.foldl (fun acc p => acc.loadPlugin p.1 p.2) m

/-- The `PluginManager` constructor with `autoDiscover = true`: built-ins
first, then one discovery pass. -/
def PluginManager.new (autoDiscovered : List (String × BaseEvaluator)) :
    PluginManager :=
  (PluginManager.empty.loadBuiltinEvaluators).discoverAndLoad autoDiscovered

/-- `PluginManager.reloadPlugins`: delete the registry entry of every
ledgered plugin, clear the ledger, and run discovery again (the rediscovery
result is passed as an input). -/
def PluginManager.reloadPlugins (m : PluginManager)
    (rediscovered : List (String × BaseEvaluator)) : PluginManager :=
  let cleared : String → Option BaseEvaluator :=
    m.loadedPlugins.foldl
      (fun ev p => fun k => if k = p.language then none else ev k)
      m.evaluators
  PluginManager.discoverAndLoad ⟨cleared, []⟩ rediscovered

/-- A discovered plugin binding (`PluginInfo`). -/
structure PluginInfo where
  packageName : String
  language : String
  evaluatorPath : String
deriving DecidableEq

/-- Parsed manifest (`PluginPackageJson`): `evaluators` is the
`praisonaibench.evaluators` mapping when the reserved key is present. -/
structure PluginPackageJson where
  name : String
  evaluators : Option (List (String × String))
deriving DecidableEq

/-- Abstract filesystem consumed by plugin discovery.  An `Option` result
of `none` models a thrown `fs` error (caught by the source);
`readPackageJson` combines `readFileSync` and `JSON.parse`, with `none`
for an unreadable file or malformed JSON. -/
structure FileSystem where
  existsSync : String → Bool
  readdirSync : String → Option (List String)
  statIsDirectory : String → Option Bool
  readPackageJson : String → Option PluginPackageJson

/-- Path concatenation (`path.join` / `path.resolve` in the places used,
where the second component is relative). -/
def pathJoin (a b : String) : String := a ++ "/" ++ b

/-- `discoverPluginFromPackage`: read the manifest and emit one
`PluginInfo` per declared language; missing or malformed manifests yield
nothing. -/
def discoverPluginFromPackage (fs : FileSystem) (packagePath packageName : String) :
    List PluginInfo :=
  let packageJsonPath := pathJoin packagePath "package.json"
  if fs.existsSync packageJsonPath then
    match fs.readPackageJson packageJsonPath with
    | none => []
    | some packageJson =>
      match packageJson.evaluators with
      | none => []
      | some evaluators =>
        evaluators.map fun p => ⟨packageName, jsToLower p.1, pathJoin packagePath p.2⟩
  else []

/-- The package loop of `discoverPlugins` for one `node_modules` directory.
A thrown `statSync`/`readdirSync` (a `none` result) aborts the rest of this
directory's scan — the source's `try` wraps the whole loop — but keeps the
plugins already found. -/
def scanPackages (fs : FileSystem) (nodeModulesPath : String) :
    List String → List PluginInfo
  | [] => []
  | packageName :: rest =>
    if packageName.startsWith "." then scanPackages fs nodeModulesPath rest
    else if packageName.startsWith "@" then
      let scopedPath := pathJoin nodeModulesPath packageName
      match fs.statIsDirectory scopedPath with
      | none => []
      | some false => scanPackages fs nodeModulesPath rest
      | some true =>
        match fs.readdirSync scopedPath with
        | none => []
        | some scopedPackages =>
          (scopedPackages.map fun scopedPkg =>
            discoverPluginFromPackage fs (pathJoin scopedPath scopedPkg)
              (packageName ++ "/" ++ scopedPkg)).flatten ++
          scanPackages fs nodeModulesPath rest
    else
      discoverPluginFromPackage fs (pathJoin nodeModulesPath packageName)
        packageName ++
      scanPackages fs nodeModulesPath rest

/-- `discoverPlugins` over the resolved candidate `node_modules` paths:
skip nonexistent paths, scan readable ones, swallow directory read errors.
The embedding is a total function, reflecting that the source never lets
an exception escape this scan. -/
def discoverPlugins (fs : FileSystem) (nodeModulesPaths : List String) :
    List PluginInfo :=
  (nodeModulesPaths.map fun nodeModulesPath =>
    if fs.existsSync nodeModulesPath then
      match fs.readdirSync nodeModulesPath with
      | none => []
      | some packages => scanPackages fs nodeModulesPath packages
    else []).flatten

theorem toNat_ofNat_of_valid (n : ℕ) (h : n.isValidChar) :
    (Char.ofNat n).toNat = n := by
  simp [Char.ofNat, h, Char.ofNatAux, Char.toNat, UInt32.toNat, BitVec.toNat_ofNatLt]

theorem charToLower_idem (c : Char) :
    charToLower (charToLower c) = charToLower c := by
  unfold charToLower
  split
  · next h =>
    have hv : (c.toNat + 32).isValidChar := Or.inl (by omega)
    have ht : (Char.ofNat (c.toNat + 32)).toNat = c.toNat + 32 :=
      toNat_ofNat_of_valid _ hv
    rw [if_neg]
    rw [ht]
    omega
  · rfl

theorem jsToLowerChars_idem (l : List Char) :
    jsToLowerChars (jsToLowerChars l) = jsToLowerChars l := by
  unfold jsToLowerChars
  induction l with
  | nil => rfl
  | cons c cs ih =>
    simp only [List.map_cons, List.map_map] at *
    simp only [List.map_cons, Function.comp_apply, charToLower_idem]
    exact congrArg _ (by simpa [List.map_map] using ih)

theorem jsToLower_idem (s : String) : jsToLower (jsToLower s) = jsToLower s := by
  unfold jsToLower
  exact congrArg String.mk (jsToLowerChars_idem s.data)

theorem calculateSimilarity_nonneg (a b : List Char) :
    0 ≤ calculateSimilarity a b := by
  unfold calculateSimilarity
  split_ifs
  · norm_num
  · norm_num
  · positivity

theorem similarityToScore_nonneg {s : ℚ} (hs : 0 ≤ s) :
    0 ≤ similarityToScore s := by
  unfold similarityToScore
  split_ifs with h1 h2
  · exact Int.le_floor.mpr (by push_cast; linarith)
  · exact Int.le_floor.mpr (by push_cast; linarith)
  · exact Int.le_floor.mpr (by push_cast; linarith)

theorem similarityToScore_ge26 {s : ℚ} (hs : 17/20 ≤ s) :
    26 ≤ similarityToScore s := by
  unfold similarityToScore
  rw [if_pos (by norm_num; linarith : s ≥ 0.8)]
  exact Int.le_floor.mpr (by push_cast; norm_num; linarith)

theorem compareOutput_fst_nonneg (a e : String) : 0 ≤ (compareOutput a e).1 := by
  simp only [compareOutput]
  split_ifs with h1 h2 h3
  · norm_num
  · norm_num
  · exact le_min (similarityToScore_nonneg
      (le_trans (by norm_num) (le_max_right _ _))) (by norm_num)
  · exact le_min (similarityToScore_nonneg
      (calculateSimilarity_nonneg _ _)) (by norm_num)

theorem compareOutput_fst_le (a e : String) : (compareOutput a e).1 ≤ 30 := by
  simp only [compareOutput]
  split_ifs
  · norm_num
  · norm_num
  · exact min_le_right _ _
  · exact min_le_right _ _

theorem round_mono_q {x y : ℚ} (h : x ≤ y) : round x ≤ round y := by
  rw [round_eq, round_eq]
  exact Int.floor_mono (by linarith)

theorem validateStructure_score_nonneg (html : String) :
    0 ≤ (validateStructure html).score := by
  simp only [validateStructure]
  have h0 : round (0 : ℚ) = 0 := by norm_num
  rw [← h0]
  apply round_mono_q
  have hf : (0 : ℚ) ≤ ((cond (jsIncludes (jsToLower html) "<html") 1 0 +
      cond (jsIncludes (jsToLower html) "<head") 1 0 +
      cond (jsIncludes (jsToLower html) "<body") 1 0 : ℕ) : ℚ) := by positivity
  split_ifs <;> nlinarith

theorem validateStructure_score_le (html : String) :
    (validateStructure html).score ≤ 100 := by
  simp only [validateStructure]
  have h100 : round (100 : ℚ) = 100 := by norm_num
  rw [← h100]
  apply round_mono_q
  have hf : ((cond (jsIncludes (jsToLower html) "<html") 1 0 +
      cond (jsIncludes (jsToLower html) "<head") 1 0 +
      cond (jsIncludes (jsToLower html) "<body") 1 0 : ℕ) : ℚ) ≤ 3 := by
    rcases jsIncludes (jsToLower html) "<html" <;>
      rcases jsIncludes (jsToLower html) "<head" <;>
      rcases jsIncludes (jsToLower html) "<body" <;> norm_num
  split_ifs <;> nlinarith

set_option maxHeartbeats 1000000 in
/-- C1: every result of `TypeScriptEvaluator.evaluate` and of
`HTMLEvaluator.evaluate` has `0 ≤ score ≤ 100` and `passed` true exactly
when `score ≥ 70`. -/
theorem evaluate_score_invariant
    (code tn pr : String) (expected : Option String) (ext : TsStageInputs)
    (hcode htn hpr : String) (hexpected : Option String)
    (pw : Bool) (browserOutcome : Except String BrowserResult) :
    (0 ≤ (tsEvaluate code tn pr expected ext).1.score ∧
      (tsEvaluate code tn pr expected ext).1.score ≤ 100 ∧
      ((tsEvaluate code tn pr expected ext).1.passed = true ↔
        70 ≤ (tsEvaluate code tn pr expected ext).1.score)) ∧
    (0 ≤ (htmlEvaluate hcode htn hpr hexpected pw browserOutcome).score ∧
      (htmlEvaluate hcode htn hpr hexpected pw browserOutcome).score ≤ 100 ∧
      ((htmlEvaluate hcode htn hpr hexpected pw browserOutcome).passed = true ↔
        70 ≤ (htmlEvaluate hcode htn hpr hexpected pw browserOutcome).score)) := by
  constructor
  · obtain ⟨diags, imports, exec⟩ := ext
    cases diags with
    | cons d ds =>
      simp [tsEvaluate, validateSyntax]
    | nil =>
      have hc0 := compareOutput_fst_nonneg (exec.output.getD "") (expected.getD "")
      have hc30 := compareOutput_fst_le (exec.output.getD "") (expected.getD "")
      by_cases hexp : expected.getD "" = "" <;>
        rcases hsucc : exec.success with _ | _ <;>
          (refine ⟨?_, ?_, ?_⟩ <;>
            (simp [tsEvaluate, validateSyntax, hexp, hsucc,
                decide_eq_true_eq, ge_iff_le, min_def] <;>
              split_ifs <;> omega))
  · have hs0 := validateStructure_score_nonneg (extractHTML hcode)
    have hs100 := validateStructure_score_le (extractHTML hcode)
    have hsq0 : (0 : ℚ) ≤ ((validateStructure (extractHTML hcode)).score : ℚ) := by
      exact_mod_cast hs0
    have hsq100 : ((validateStructure (extractHTML hcode)).score : ℚ) ≤ 100 := by
      exact_mod_cast hs100
    have hfall0 : 0 ≤ round (((validateStructure (extractHTML hcode)).score : ℚ) * 0.5) := by
      have hz : round (0 : ℚ) = 0 := by norm_num
      rw [← hz]
      exact round_mono_q
        (by linarith [mul_nonneg hsq0 (by norm_num : (0 : ℚ) ≤ 0.5)])
    have hfall50 : round (((validateStructure (extractHTML hcode)).score : ℚ) * 0.5) ≤ 50 := by
      have h50 : round (50 : ℚ) = 50 := by norm_num
      rw [← h50]
      exact round_mono_q
        (by linarith [mul_le_mul_of_nonneg_right hsq100 (by norm_num : (0 : ℚ) ≤ 0.5)])
    cases pw with
    | false =>
      refine ⟨?_, ?_, ?_⟩
      · exact hfall0
      · exact le_trans hfall50 (by norm_num)
      · simp [htmlEvaluate, decide_eq_true_eq, ge_iff_le]
    | true =>
      cases browserOutcome with
      | error msg =>
        refine ⟨?_, ?_, ?_⟩
        · exact hfall0
        · exact le_trans hfall50 (by norm_num)
        · simp [htmlEvaluate, decide_eq_true_eq, ge_iff_le]
      | ok br =>
        refine ⟨?_, ?_, ?_⟩ <;> simp only [htmlEvaluate]
        · split_ifs <;> norm_num
        · split_ifs <;> norm_num
        · simp [decide_eq_true_eq, ge_iff_le]

/-- C2 counterexample: for a syntactically valid, successfully executing
sample with no expected value, the comparison stage awards 0 points (not
30) and the total is 70 (not 100). -/
theorem ts_no_expected_counterexample :
    (tsEvaluate "console.log(1)" "t" "p" none
      ⟨[], [], ⟨true, some "1", none⟩⟩).1.score = 70 ∧
    (tsEvaluate "console.log(1)" "t" "p" none
      ⟨[], [], ⟨true, some "1", none⟩⟩).1.details.score_breakdown =
      some ⟨30, 40, 0⟩ ∧
    ¬ (tsEvaluate "console.log(1)" "t" "p" none
      ⟨[], [], ⟨true, some "1", none⟩⟩).1.score = 100 := by
  refine ⟨?_, ?_, ?_⟩ <;> decide

/-- C2 (amended): when execution succeeded and no expected-output string
was supplied, the output-comparison stage awards 0 points (the
`output_match` contribution is 0) and a syntactically valid, successfully
executing sample totals 30 + 40 + 0 = 70, not 100. -/
theorem ts_no_expected_zero_comparison (code tn pr : String)
    (imports : List String) (out err : Option String) :
    (tsEvaluate code tn pr none ⟨[], imports, ⟨true, out, err⟩⟩).1.score = 70 ∧
    (tsEvaluate code tn pr none
      ⟨[], imports, ⟨true, out, err⟩⟩).1.details.score_breakdown =
      some ⟨30, 40, 0⟩ := by
  constructor <;> simp [tsEvaluate, validateSyntax]

/-- C3: a syntactically valid sample that executes successfully scores
exactly 70 with `passed = true` when no expected value is supplied. -/
theorem ts_valid_success_no_expected_scores_70 (code tn pr : String)
    (imports : List String) (out err : Option String) :
    (tsEvaluate code tn pr none ⟨[], imports, ⟨true, out, err⟩⟩).1.score = 70 ∧
    (tsEvaluate code tn pr none ⟨[], imports, ⟨true, out, err⟩⟩).1.passed = true := by
  constructor <;> simp [tsEvaluate, validateSyntax]

/-- C4: on any syntax-validation failure (at least one diagnostic),
`evaluate` returns immediately with score 0 and `passed = false`, the
feedback is exactly one error item carrying the parser's message with a
1-based line number, and neither the execution stage nor the
output-comparison stage runs — regardless of the expected value. -/
theorem ts_syntax_error_short_circuits (code tn pr : String)
    (d : Diagnostic) (ds : List Diagnostic) (imports : List String)
    (exec : ExecutionResult) (expected : Option String) :
    (tsEvaluate code tn pr expected ⟨d :: ds, imports, exec⟩).1.score = 0 ∧
    (tsEvaluate code tn pr expected ⟨d :: ds, imports, exec⟩).1.passed = false ∧
    (tsEvaluate code tn pr expected ⟨d :: ds, imports, exec⟩).1.feedback =
      [{ level := .error
         message := "❌ Syntax error: " ++
           (d.message ++ " (line " ++ toString (d.line + 1) ++ ")") }] ∧
    (tsEvaluate code tn pr expected ⟨d :: ds, imports, exec⟩).2 =
      [Stage.syntaxCheck] := by
  refine ⟨?_, ?_, ?_, ?_⟩ <;> simp [tsEvaluate, validateSyntax, jsInterpOpt]

/-- C6 counterexample: the early return on syntax failure carries no
`details.score_breakdown` at all, contradicting the claim that every
result reports one. -/
theorem ts_breakdown_missing_on_syntax_error :
    (tsEvaluate "let x = " "t" "p" (some "test")
      ⟨[⟨"Unterminated string literal.", 0⟩], [],
        ⟨false, none, none⟩⟩).1.details.score_breakdown = none := by
  decide

/-- C6 (amended): every result produced by the complete pipeline (syntax
validation passed) carries a `details.score_breakdown` whose three stage
contributions sum to the returned score; the early return on syntax
failure carries no `score_breakdown`. -/
theorem ts_breakdown_sums_to_score (code tn pr : String)
    (expected : Option String) (imports : List String)
    (exec : ExecutionResult) (d : Diagnostic) (ds : List Diagnostic) :
    ((tsEvaluate code tn pr expected
        ⟨[], imports, exec⟩).1.details.score_breakdown.map
      (fun b => b.syntaxScore + b.execution + b.output_match)) =
      some (tsEvaluate code tn pr expected ⟨[], imports, exec⟩).1.score ∧
    (tsEvaluate code tn pr expected
      ⟨d :: ds, imports, exec⟩).1.details.score_breakdown = none := by
  constructor
  · have hc0 := compareOutput_fst_nonneg (exec.output.getD "") (expected.getD "")
    have hc30 := compareOutput_fst_le (exec.output.getD "") (expected.getD "")
    by_cases hexp : expected.getD "" = "" <;>
      rcases hsucc : exec.success with _ | _ <;>
        (simp [tsEvaluate, validateSyntax, hexp, hsucc, min_def] <;>
          split_ifs <;> omega)
  · simp [tsEvaluate, validateSyntax]

/-- C5 counterexample: with actual `hi` and expected `high`, the
normalized strings differ and one (`hi`) is a substring of the other
(`high`), yet `compareOutput` reports similarity 2/3 < 0.85 and awards
20 < 26 points — the source only floors the similarity when the expected
string is contained in the actual output, not conversely. -/
theorem compareOutput_substring_counterexample :
    jsIncludes (jsToLower (jsTrim "high")) (jsToLower (jsTrim "hi")) = true ∧
    jsToLower (jsTrim "hi") ≠ jsToLower (jsTrim "high") ∧
    (compareOutput "hi" "high").2 < 0.85 ∧
    (compareOutput "hi" "high").1 < 26 := by
  have h1 : jsTrim "hi" ≠ jsTrim "high" := by decide
  have h2 : jsToLower (jsTrim "hi") ≠ jsToLower (jsTrim "high") := by decide
  have h3 : jsIncludes (jsToLower (jsTrim "hi")) (jsToLower (jsTrim "high")) = false := by
    decide
  have hne : (jsToLower (jsTrim "hi")).data ≠ (jsToLower (jsTrim "high")).data := by
    decide
  have hlen1 : (jsToLower (jsTrim "hi")).data.length = 2 := by decide
  have hlen2 : (jsToLower (jsTrim "high")).data.length = 4 := by decide
  have hlcs : lcsLen (jsToLower (jsTrim "hi")).data (jsToLower (jsTrim "high")).data = 2 := by
    decide
  have hsim : calculateSimilarity (jsToLower (jsTrim "hi")).data
      (jsToLower (jsTrim "high")).data = 2/3 := by
    unfold calculateSimilarity
    rw [if_neg hne, if_neg (by simp [hlen1, hlen2]), hlcs, hlen1, hlen2]
    norm_num
  have hsts : similarityToScore (2/3) = 20 := by
    unfold similarityToScore
    rw [if_neg (by norm_num), if_pos (by norm_num)]
    rw [Int.floor_eq_iff]
    norm_num
  have hcmp : compareOutput "hi" "high" =
      (min (similarityToScore (2/3)) 30, 2/3) := by
    simp only [compareOutput]
    rw [if_neg h1, if_neg h2, h3, hsim]
    simp
  refine ⟨by decide, h2, ?_, ?_⟩
  · rw [hcmp]
    norm_num
  · rw [hcmp, hsts]
    norm_num

/-- C5 (amended): the 0.85 similarity floor applies exactly in the
direction implemented by `actualNormalized.includes(expectedNormalized)`:
whenever the normalized strings differ and the normalized expected string
occurs inside the normalized actual string, the reported similarity is at
least 0.85 and the comparison stage awards at least 26 points. -/
theorem compareOutput_expected_substring_floor (actual expected : String)
    (hne : jsToLower (jsTrim actual) ≠ jsToLower (jsTrim expected))
    (hsub : jsIncludes (jsToLower (jsTrim actual))
      (jsToLower (jsTrim expected)) = true) :
    0.85 ≤ (compareOutput actual expected).2 ∧
    26 ≤ (compareOutput actual expected).1 := by
  have h1 : jsTrim actual ≠ jsTrim expected := fun h => hne (by rw [h])
  simp only [compareOutput]
  rw [if_neg h1, if_neg hne, hsub]
  simp only [if_true]
  constructor
  · exact le_max_right _ _
  · exact le_min
      (similarityToScore_ge26
        (le_trans (by norm_num) (le_max_right _ 0.85)))
      (by norm_num)

/-- Witness for `compareOutput_expected_substring_floor` at
actual `hello world`, expected `hello`. -/
theorem compareOutput_expected_substring_floor_witness :
    jsToLower (jsTrim "hello world") ≠ jsToLower (jsTrim "hello") ∧
    jsIncludes (jsToLower (jsTrim "hello world"))
      (jsToLower (jsTrim "hello")) = true ∧
    0.85 ≤ (compareOutput "hello world" "hello").2 ∧
    26 ≤ (compareOutput "hello world" "hello").1 :=
  ⟨by decide, by decide,
    (compareOutput_expected_substring_floor "hello world" "hello"
      (by decide) (by decide)).1,
    (compareOutput_expected_substring_floor "hello world" "hello"
      (by decide) (by decide)).2⟩

/-- C7: `detectLanguage` precedence — (1) a truthy configuration language
always wins; (2) otherwise a fenced-code-block tag other than the generic
`code` placeholder; (3) otherwise `html` when the response contains a
doctype or an `<html` tag; (4) otherwise the fixed default `typescript`. -/
theorem detectLanguage_precedence (response : String) (tc : Option TestConfig) :
    (∀ t l, tc = some t → t.language = some l → l ≠ "" →
      detectLanguage response tc = jsToLower l) ∧
    ((tc.bind TestConfig.language).getD "" = "" →
      ∀ tag, findFenceTag response.data = some tag →
        String.mk (jsToLowerChars tag) ≠ "code" →
        detectLanguage response tc = String.mk (jsToLowerChars tag)) ∧
    ((tc.bind TestConfig.language).getD "" = "" →
      (findFenceTag response.data = none ∨
        ∃ tag, findFenceTag response.data = some tag ∧
          String.mk (jsToLowerChars tag) = "code") →
      (jsIncludes (jsToLower response) "<!doctype" = true ∨
        jsIncludes (jsToLower response) "<html" = true) →
      detectLanguage response tc = "html") ∧
    ((tc.bind TestConfig.language).getD "" = "" →
      (findFenceTag response.data = none ∨
        ∃ tag, findFenceTag response.data = some tag ∧
          String.mk (jsToLowerChars tag) = "code") →
      jsIncludes (jsToLower response) "<!doctype" = false →
      jsIncludes (jsToLower response) "<html" = false →
      detectLanguage response tc = "typescript") := by
  refine ⟨?_, ?_, ?_, ?_⟩
  · intro t l ht hl hlne
    subst ht
    simp [detectLanguage, Option.bind, hl, hlne]
  · intro hcfg tag htag hne
    simp [detectLanguage, hcfg, htag, hne]
  · intro hcfg hfence hind
    rcases hfence with hf | ⟨tag, htag, hcode⟩ <;>
      rcases hind with hi | hi <;>
        simp [detectLanguage, hcfg, hi, *]
  · intro hcfg hfence h1 h2
    rcases hfence with hf | ⟨tag, htag, hcode⟩ <;>
      simp [detectLanguage, hcfg, h1, h2, *]

/-- Witness for `detectLanguage_precedence`: one concrete response per
precedence level. -/
theorem detectLanguage_precedence_witness :
    detectLanguage "x" (some { language := some "TypeScript" }) = "typescript" ∧
    detectLanguage "```TS\nfoo\n```" none = "ts" ∧
    detectLanguage "```code\n<HTML>\n```" none = "html" ∧
    detectLanguage "hello" none = "typescript" := by
  refine ⟨?_, ?_, ?_, ?_⟩
  · exact ((detectLanguage_precedence "x"
      (some { language := some "TypeScript" })).1 _ _ rfl rfl
        (by decide)).trans (by decide)
  · exact ((detectLanguage_precedence "```TS\nfoo\n```" none).2.1 (by decide)
      ("TS".data) (by decide) (by decide)).trans (by decide)
  · exact (detectLanguage_precedence "```code\n<HTML>\n```" none).2.2.1
      (by decide) (Or.inr ⟨"code".data, by decide, by decide⟩)
      (Or.inr (by decide))
  · exact (detectLanguage_precedence "hello" none).2.2.2
      (by decide) (Or.inl (by decide)) (by decide) (by decide)

/-- C10: `detectLanguage` always returns a fully lower-cased identifier,
and the registry operations lower-case their arguments, so a lookup with
any capitalization of a registered language finds the evaluator. -/
theorem case_insensitive_dispatch :
    (∀ (response : String) (tc : Option TestConfig),
      jsToLower (detectLanguage response tc) = detectLanguage response tc) ∧
    (∀ (m : PluginManager) (lang query : String) (ev : BaseEvaluator),
      jsToLower query = jsToLower lang →
      (m.register lang ev).getEvaluator query = some ev ∧
      (m.register lang ev).hasEvaluator query = true) := by
  constructor
  · intro r tc
    simp only [detectLanguage]
    by_cases hc : ((tc.bind TestConfig.language).getD "") = ""
    · rw [if_neg (by simp [hc])]
      rcases hf : findFenceTag r.data with _ | tag
      · dsimp only
        split_ifs <;> decide
      · dsimp only
        by_cases htag : String.mk (jsToLowerChars tag) ≠ "code"
        · rw [if_pos htag]
          unfold jsToLower
          exact congrArg String.mk (jsToLowerChars_idem tag)
        · rw [if_neg htag]
          split_ifs <;> decide
    · rw [if_pos hc]
      exact jsToLower_idem _
  · intro m lang query ev h
    unfold PluginManager.register PluginManager.getEvaluator
      PluginManager.hasEvaluator
    simp [h]

/-- Witness for `case_insensitive_dispatch`: a registration under
`typescript` is found by a `TypeScript` query. -/
theorem case_insensitive_dispatch_witness :
    jsToLower "TypeScript" = jsToLower "typescript" ∧
    (PluginManager.empty.register "typescript"
      tsEvaluatorInstance).getEvaluator "TypeScript" = some tsEvaluatorInstance ∧
    (PluginManager.empty.register "typescript"
      tsEvaluatorInstance).hasEvaluator "TypeScript" = true :=
  ⟨by decide,
   (case_insensitive_dispatch.2 PluginManager.empty "typescript" "TypeScript"
     tsEvaluatorInstance (by decide)).1,
   (case_insensitive_dispatch.2 PluginManager.empty "typescript" "TypeScript"
     tsEvaluatorInstance (by decide)).2⟩

theorem discoverAndLoad_loadedPlugins (m : PluginManager)
    (found : List (String × BaseEvaluator)) :
    (m.discoverAndLoad found).loadedPlugins =
      m.loadedPlugins ++ found.map
        (fun p => ⟨jsToLower p.2.getLanguage, p.1, p.2⟩) := by
  induction found generalizing m with
  | nil => simp [PluginManager.discoverAndLoad]
  | cons p rest ih =>
    rw [show m.discoverAndLoad (p :: rest) =
      (m.loadPlugin p.1 p.2).discoverAndLoad rest from rfl]
    rw [ih]
    simp [PluginManager.loadPlugin, PluginManager.register]

theorem discoverAndLoad_evaluators_of_ne (m : PluginManager)
    (found : List (String × BaseEvaluator)) (k : String)
    (h : ∀ p ∈ found, jsToLower p.2.getLanguage ≠ k) :
    (m.discoverAndLoad found).evaluators k = m.evaluators k := by
  induction found generalizing m with
  | nil => rfl
  | cons p rest ih =>
    rw [show m.discoverAndLoad (p :: rest) =
      (m.loadPlugin p.1 p.2).discoverAndLoad rest from rfl]
    rw [ih _ (fun q hq => h q (List.mem_cons_of_mem _ hq))]
    have hp := h p (List.mem_cons_self p rest)
    show (if k = jsToLower (jsToLower p.2.getLanguage) then some p.2
      else m.evaluators k) = m.evaluators k
    rw [jsToLower_idem, if_neg (fun hk => hp hk.symm)]

theorem clearFold_of_notMem (L : List LoadedPlugin) (k : String)
    (e : String → Option BaseEvaluator)
    (h : ∀ lp ∈ L, lp.language ≠ k) :
    (L.foldl (fun ev p => fun q => if q = p.language then none else ev q) e) k
      = e k := by
  induction L generalizing e with
  | nil => rfl
  | cons p rest ih =>
    rw [List.foldl_cons]
    rw [ih _ (fun q hq => h q (List.mem_cons_of_mem _ hq))]
    exact if_neg (fun hk => h p (List.mem_cons_self p rest) hk.symm)

theorem clearFold_of_mem (L : List LoadedPlugin) (k : String)
    (e : String → Option BaseEvaluator)
    (h : ∃ lp ∈ L, lp.language = k) :
    (L.foldl (fun ev p => fun q => if q = p.language then none else ev q) e) k
      = none := by
  induction L generalizing e with
  | nil => simp at h
  | cons p rest ih =>
    rw [List.foldl_cons]
    by_cases hrest : ∃ lp ∈ rest, lp.language = k
    · exact ih _ hrest
    · have hp : p.language = k := by
        rcases h with ⟨lp, hmem, hl⟩
        rcases List.mem_cons.mp hmem with rfl | hm
        · exact hl
        · exact absurd ⟨lp, hm, hl⟩ hrest
      rw [clearFold_of_notMem rest k _ (fun q hq hql => hrest ⟨q, hq, hql⟩)]
      simp [hp]

/-- C8 counterexample: an external plugin that self-reports the built-in
language `typescript` overwrites the built-in registry entry, and
`reloadPlugins` then deletes that entry outright — the built-in
TypeScript registration does not survive the reload. -/
theorem reload_deletes_shadowed_builtin :
    ((PluginManager.new []).loadPlugin "rogue-pkg"
      ⟨"TypeScript", 7⟩).getEvaluator "typescript" = some ⟨"TypeScript", 7⟩ ∧
    (((PluginManager.new []).loadPlugin "rogue-pkg"
      ⟨"TypeScript", 7⟩).reloadPlugins []).getEvaluator "typescript" = none := by
  constructor <;> decide

/-- C8 (amended): provided no loaded or re-discovered external plugin
self-reports a built-in language (`typescript`, `ts`, `html`),
`reloadPlugins` leaves every built-in registration mapped to its original
evaluator instance and removes the registry entry of every previously
loaded external plugin that the re-discovery pass does not load again. -/
theorem builtins_survive_reload
    (loads rediscovered : List (String × BaseEvaluator))
    (h1 : ∀ p ∈ loads, jsToLower p.2.getLanguage ∉
      (["typescript", "ts", "html"] : List String))
    (h2 : ∀ p ∈ rediscovered, jsToLower p.2.getLanguage ∉
      (["typescript", "ts", "html"] : List String)) :
    ((PluginManager.new loads).reloadPlugins rediscovered).getEvaluator
      "typescript" = some tsEvaluatorInstance ∧
    ((PluginManager.new loads).reloadPlugins rediscovered).getEvaluator
      "ts" = some tsEvaluatorInstance ∧
    ((PluginManager.new loads).reloadPlugins rediscovered).getEvaluator
      "html" = some htmlEvaluatorInstance ∧
    (∀ p ∈ loads, jsToLower p.2.getLanguage ∉
        rediscovered.map (fun q => jsToLower q.2.getLanguage) →
      ((PluginManager.new loads).reloadPlugins rediscovered).getEvaluator
        p.2.getLanguage = none) := by
  have hplugins : (PluginManager.new loads).loadedPlugins =
      loads.map (fun p => ⟨jsToLower p.2.getLanguage, p.1, p.2⟩) := by
    rw [show PluginManager.new loads =
      (PluginManager.empty.loadBuiltinEvaluators).discoverAndLoad loads from rfl]
    rw [discoverAndLoad_loadedPlugins]
    rfl
  have key : ∀ k : String, jsToLower k = k →
      k ∈ (["typescript", "ts", "html"] : List String) →
      ((PluginManager.new loads).reloadPlugins rediscovered).getEvaluator k =
        (PluginManager.empty.loadBuiltinEvaluators).evaluators k := by
    intro k hlow hmem
    show (PluginManager.discoverAndLoad _ rediscovered).evaluators
      (jsToLower k) = _
    rw [hlow]
    rw [discoverAndLoad_evaluators_of_ne _ _ _
      (fun q hq heq => h2 q hq (heq ▸ hmem))]
    show ((PluginManager.new loads).loadedPlugins.foldl
      (fun ev p => fun q => if q = p.language then none else ev q)
      (PluginManager.new loads).evaluators) k = _
    rw [hplugins]
    rw [clearFold_of_notMem _ _ _ ?notmem]
    case notmem =>
      intro lp hlp
      rcases List.mem_map.mp hlp with ⟨p, hp, rfl⟩
      exact fun heq => h1 p hp (by
        simp only [] at heq
        rw [heq]
        exact hmem)
    exact discoverAndLoad_evaluators_of_ne _ _ _
      (fun q hq heq => h1 q hq (heq ▸ hmem))
  refine ⟨?_, ?_, ?_, ?_⟩
  · rw [key "typescript" (by decide) (by decide)]
    decide
  · rw [key "ts" (by decide) (by decide)]
    decide
  · rw [key "html" (by decide) (by decide)]
    decide
  · intro p hp hnre
    show (PluginManager.discoverAndLoad _ rediscovered).evaluators
      (jsToLower p.2.getLanguage) = none
    rw [discoverAndLoad_evaluators_of_ne _ _ _
      (fun q hq heq => hnre (by rw [← heq]; exact List.mem_map_of_mem _ hq))]
    show ((PluginManager.new loads).loadedPlugins.foldl
      (fun ev p => fun q => if q = p.language then none else ev q)
      (PluginManager.new loads).evaluators) (jsToLower p.2.getLanguage) = none
    rw [hplugins]
    exact clearFold_of_mem _ _ _
      ⟨⟨jsToLower p.2.getLanguage, p.1, p.2⟩, List.mem_map_of_mem _ hp, rfl⟩

/-- Witness for `builtins_survive_reload`: one external `python` plugin
loaded, then a reload that rediscovers nothing. -/
theorem builtins_survive_reload_witness :
    ((PluginManager.new [("praisonaibench-python", ⟨"python", 5⟩)]).reloadPlugins
      []).getEvaluator "typescript" = some tsEvaluatorInstance ∧
    ((PluginManager.new [("praisonaibench-python", ⟨"python", 5⟩)]).reloadPlugins
      []).getEvaluator "ts" = some tsEvaluatorInstance ∧
    ((PluginManager.new [("praisonaibench-python", ⟨"python", 5⟩)]).reloadPlugins
      []).getEvaluator "html" = some htmlEvaluatorInstance ∧
    (∀ p ∈ ([("praisonaibench-python", (⟨"python", 5⟩ : BaseEvaluator))] :
        List (String × BaseEvaluator)),
      jsToLower p.2.getLanguage ∉
        ([] : List (String × BaseEvaluator)).map
          (fun q => jsToLower q.2.getLanguage) →
      ((PluginManager.new [("praisonaibench-python", ⟨"python", 5⟩)]).reloadPlugins
        []).getEvaluator p.2.getLanguage = none) :=
  builtins_survive_reload [("praisonaibench-python", ⟨"python", 5⟩)] []
    (by decide) (by decide)

/-- C9: when every candidate search path is nonexistent or an empty
directory, `discoverPlugins` returns the empty plugin list (and, being a
total function, never throws). -/
theorem discoverPlugins_nonexistent_or_empty (fs : FileSystem)
    (paths : List String)
    (h : ∀ p ∈ paths, fs.existsSync p = false ∨ fs.readdirSync p = some []) :
    discoverPlugins fs paths = [] := by
  induction paths with
  | nil => rfl
  | cons p rest ih =>
    have hrest := ih (fun q hq => h q (List.mem_cons_of_mem _ hq))
    have hp : (if fs.existsSync p then
        match fs.readdirSync p with
        | none => []
        | some packages => scanPackages fs p packages
      else []) = ([] : List PluginInfo) := by
      rcases h p (List.mem_cons_self p rest) with hp | hp
      · simp [hp]
      · by_cases he : fs.existsSync p
        · simp [he, hp, scanPackages]
        · simp [he]
    show (if fs.existsSync p then
        match fs.readdirSync p with
        | none => []
        | some packages => scanPackages fs p packages
      else []) ++ ((rest.map _).flatten) = []
    rw [hp]
    exact hrest

/-- Witness for `discoverPlugins_nonexistent_or_empty`: a filesystem with
no entries and one nonexistent search path. -/
theorem discoverPlugins_nonexistent_witness :
    discoverPlugins
      ⟨fun _ => false, fun _ => none, fun _ => none, fun _ => none⟩
      ["/nonexistent/node_modules"] = [] :=
  discoverPlugins_nonexistent_or_empty _ _ (by intro p _; left; rfl)
